import Mathlib

/-!
Shallow embedding of the meal-recommendation app (`src/app.py`).

Numeric columns (pandas floats) are modelled as `ℚ`; tables as lists of
records plus booleans recording which optional columns are present
(column presence is a table-level fact in pandas).  `recommend` and
`prepare_for_app` are translated line by line from the source.
-/

namespace RamadanApp

/-! ### String normalization

Models Python `str.strip().lower()` (used on `meal` in `recommend`
and in pandas as `.str.strip().str.lower()` in `prepare_for_app`)
as executable char-list operations. -/

/-- Lowercase one character (ASCII, as relevant to the slot/kind keywords). -/
def lowerChar (c : Char) : Char :=
  if c.isUpper then Char.ofNat (c.toNat + 32) else c

/-- Whitespace recognised by `strip`. -/
def isSpaceChar (c : Char) : Bool :=
  c = ' ' || c = '\t' || c = '\n' || c = '\r'

/-- Python `str.strip()`: drop leading and trailing whitespace. -/
def stripStr (s : String) : String :=
  ⟨((s.data.dropWhile isSpaceChar).reverse.dropWhile isSpaceChar).reverse⟩

/-- Python `str.lower()`. -/
def lowerStr (s : String) : String :=
  ⟨s.data.map lowerChar⟩

/-- `meal.strip().lower()` / pandas `.str.strip().str.lower()`. -/
def stripLower (s : String) : String :=
  lowerStr (stripStr s)

/-! ### Data model -/

/-- One row of the prepared table (post `prepare_for_app`).
`kind` is meaningful only when the table's `hasKind` flag is set. -/
structure Row where
  title : String
  calories : ℚ
  protein : ℚ
  fat : ℚ
  sodium : ℚ
  meal_slot : String
  why : String
  final_score : ℚ
  kind : String
deriving DecidableEq, Repr

/-- The prepared table: its rows plus whether the optional `kind`
column is present (checked by `recommend` via `"kind" in pool.columns`). -/
structure Table where
  hasKind : Bool
  rows : List Row
deriving DecidableEq, Repr

/-- A row of the raw CSV before `prepare_for_app`.  A `none` in a
numeric field models a missing value or a non-numeric entry
(`pd.to_numeric(..., errors="coerce")` turns those into NaN). -/
structure RawRow where
  title : Option String
  calories : Option ℚ
  protein : Option ℚ
  fat : Option ℚ
  sodium : Option ℚ
  meal_slot : Option String
  why : Option String
  final_score : Option ℚ
  kind : Option String
deriving DecidableEq, Repr

/-- The raw table: per-column presence flags plus the rows. -/
structure RawTable where
  hasTitle : Bool
  hasCalories : Bool
  hasProtein : Bool
  hasFat : Bool
  hasSodium : Bool
  hasMealSlot : Bool
  hasWhy : Bool
  hasFinalScore : Bool
  hasKind : Bool
  rows : List RawRow
deriving DecidableEq, Repr

/-! ### prepare_for_app -/

/-- The required-column check of `prepare_for_app`: the loop over
`["title", "calories", "protein", "fat", "sodium"]` raises on the first
absent column; `none` means all five are present. -/
def missingRequired (t : RawTable) : Option String :=
  if !t.hasTitle then some "title"
  else if !t.hasCalories then some "calories"
  else if !t.hasProtein then some "protein"
  else if !t.hasFat then some "fat"
  else if !t.hasSodium then some "sodium"
  else none

/-- The sanity range filter of `prepare_for_app`
(`between` in pandas is inclusive on both ends). -/
def inRanges (cal prot fa sod : ℚ) : Bool :=
  decide (1 ≤ cal ∧ cal ≤ 1993) && decide (0 ≤ prot ∧ prot ≤ 200) &&
  decide (0 ≤ fa ∧ fa ≤ 194) && decide (0 ≤ sod ∧ sod ≤ 5980)

/-- `meal_slot` normalization: absent column means `"either"` for every
row; otherwise strip/lowercase and map unrecognized values to
`"either"`.  (`astype(str)` renders a missing cell as the string
`"nan"`, which is unrecognized.) -/
def slotNorm (hasMealSlot : Bool) (s : Option String) : String :=
  if hasMealSlot then
    let v := stripLower (s.getD "nan")
    if v = "suhoor" ∨ v = "iftar" ∨ v = "either" then v else "either"
  else "either"

/-- The derived `why` text (only built when the column is absent). -/
def buildWhy (sod prot : ℚ) : String :=
  (if sod ≤ 600 then "صوديوم أقل" else "صوديوم أعلى") ++ " + " ++
  (if 25 ≤ prot then "بروتين عالي" else "بروتين متوسط")

/-- The derived `final_score` (only built when the column is absent). -/
def derivedFinalScore (prot sod fa : ℚ) : ℚ :=
  prot * (8 / 10) - sod / 1200 - fa * (5 / 100)

/-- Per-row effect of `prepare_for_app`: `dropna` on the five essential
fields, the sanity range filter, then derivation of the optional
columns.  `none` means the row is dropped. -/
def prepRow (t : RawTable) (r : RawRow) : Option Row :=
  match r.title, r.calories, r.protein, r.fat, r.sodium with
  | some ti, some cal, some prot, some fa, some sod =>
    if inRanges cal prot fa sod then
      some { title := ti
             calories := cal
             protein := prot
             fat := fa
             sodium := sod
             meal_slot := slotNorm t.hasMealSlot r.meal_slot
             why := if t.hasWhy then r.why.getD "nan" else buildWhy sod prot
             final_score := if t.hasFinalScore then r.final_score.getD 0
                            else derivedFinalScore prot sod fa
             kind := if t.hasKind then stripLower (r.kind.getD "nan") else "" }
    else none
  | _, _, _, _, _ => none

/-- `prepare_for_app`: raises (here: `Except.error` with the missing
column name) when a required column is absent, otherwise builds the
prepared table. -/
def prepare_for_app (t : RawTable) : Except String Table :=
  match missingRequired t with
  | some c => Except.error c
  | none => Except.ok ⟨t.hasKind, t.rows.filterMap (prepRow t)⟩

/-! ### recommend -/

/-- A row of the scored pool: the original row plus the two columns
`recommend` adds (`calorie_fit` and `score`). -/
structure Scored where
  row : Row
  calorie_fit : ℚ
  score : ℚ
deriving DecidableEq, Repr

/-- Slot predicate: `pool["meal_slot"].isin([meal, "either"])`. -/
def slotKeep (meal : String) (r : Row) : Bool :=
  r.meal_slot == meal || r.meal_slot == "either"

/-- The slot filter: applied only when the normalized meal is
`"suhoor"` or `"iftar"`. -/
def slotFilter (meal : String) (rows : List Row) : List Row :=
  if meal = "suhoor" ∨ meal = "iftar" then rows.filter (slotKeep meal)
  else rows

/-- Hard-constraint predicate:
`calories <= calories_max & protein >= protein_min & sodium <= sodium_max`. -/
def hardKeep (calories_max protein_min sodium_max : ℚ) (r : Row) : Bool :=
  decide (r.calories ≤ calories_max) && decide (protein_min ≤ r.protein) &&
  decide (r.sodium ≤ sodium_max)

/-- The hard-constraint filter. -/
def hardFilter (calories_max protein_min sodium_max : ℚ) (rows : List Row) :
    List Row :=
  rows.filter (hardKeep calories_max protein_min sodium_max)

/-- The surviving pool: slot filter then hard-constraint filter. -/
def poolOf (t : Table) (meal : String)
    (calories_max protein_min sodium_max : ℚ) : List Row :=
  hardFilter calories_max protein_min sodium_max
    (slotFilter (stripLower meal) t.rows)

/-- `1.0 - (np.abs(pool["calories"] - calories_max) / max(calories_max, 1))`. -/
def calorieFitRaw (calories_max cal : ℚ) : ℚ :=
  1 - |cal - calories_max| / max calories_max 1

/-- `.clip(lower=0, upper=1)`. -/
def clip01 (x : ℚ) : ℚ :=
  min (max x 0) 1

/-- The clipped calorie-fit column. -/
def calorieFit (calories_max cal : ℚ) : ℚ :=
  clip01 (calorieFitRaw calories_max cal)

/-- Attach the `calorie_fit` and `score` columns to a row:
`score = final_score + calorie_fit * 0.6`. -/
def scoreRow (calories_max : ℚ) (r : Row) : Scored :=
  { row := r
    calorie_fit := calorieFit calories_max r.calories
    score := r.final_score + calorieFit calories_max r.calories * (6 / 10) }

/-- Score-descending comparison used by `sort_values("score", ascending=False)`. -/
def scoreGE (a b : Scored) : Prop :=
  b.score ≤ a.score

instance : DecidableRel scoreGE :=
  fun a b => inferInstanceAs (Decidable (b.score ≤ a.score))

instance : IsTotal Scored scoreGE :=
  ⟨fun a b => le_total b.score a.score⟩

instance : IsTrans Scored scoreGE :=
  ⟨fun _ _ _ h h' => le_trans h' h⟩

/-- `sort_values("score", ascending=False)`.  The source's tie-break is
unspecified (pandas quicksort); any comparison sort realising the
descending order is a faithful model. -/
def sortByScore (l : List Scored) : List Scored :=
  l.insertionSort scoreGE

/-- The distinct `kind` keys of the scored pool (the groupby keys).
pandas enumerates groups in sorted-key order; since the concatenation
is re-sorted by score afterwards, only the key set matters here. -/
def kindsOf (l : List Scored) : List String :=
  (l.map (fun s => s.row.kind)).dedup

/-- One groupby group, in the pool's (score-descending) order. -/
def kindGroup (l : List Scored) (k : String) : List Scored :=
  l.filter (fun s => s.row.kind == k)

/-- The diversification branch: cap each kind group at
`per_kind_cap = max(1, top_n // 4)`, concatenate, re-sort by score
descending, truncate to `top_n`. -/
def diversify (top_n : Nat) (sorted : List Scored) : List Scored :=
  let cap := max 1 (top_n / 4)
  (sortByScore
    (((kindsOf sorted).map (fun k => (kindGroup sorted k).take cap)).flatten)).take
    top_n

/-- `recommend(df, meal, calories_max, protein_min, sodium_max, top_n)`. -/
def recommend (t : Table) (meal : String)
    (calories_max protein_min sodium_max : ℚ) (top_n : Nat) : List Scored :=
  let pool := poolOf t meal calories_max protein_min sodium_max
  if pool.isEmpty then []
  else
    let sorted := sortByScore (pool.map (scoreRow calories_max))
    if t.hasKind then diversify top_n sorted
    else sorted.take top_n

/-! ### Concrete fixtures used by the witnesses -/

/-- A suhoor row within all default bounds. -/
def rowA : Row :=
  ⟨"A", 500, 30, 10, 500, "suhoor", "w", 20, ""⟩

/-- An iftar row violating the default bounds. -/
def rowB : Row :=
  ⟨"B", 900, 10, 12, 2000, "iftar", "w", 5, ""⟩

/-- A two-row table without the `kind` column. -/
def T1 : Table := ⟨false, [rowA, rowB]⟩

/-- A qualifying row of kind `k` with base score `i`. -/
def kRow (k : String) (i : Nat) : Row :=
  ⟨"r", 700, 30, 10, 500, "either", "w", (i : ℚ), k⟩

/-- A table with the `kind` column: two kinds, eight qualifying rows each. -/
def T16 : Table :=
  ⟨true, (List.range 8).map (kRow "a") ++ (List.range 8).map (kRow "b")⟩

/-- A raw row with all values present and in range; `meal_slot` and
`kind` need normalizing. -/
def rawGood : RawRow :=
  ⟨some "Koshari", some 450, some 18, some 9, some 700, some "  IFTAR ",
    some "tasty", some 12, some " Mains "⟩

/-- A raw row whose calories are out of range (dropped). -/
def rawBad1 : RawRow :=
  ⟨some "Huge", some 2500, some 18, some 9, some 700, some "iftar",
    some "w", some 1, some "m"⟩

/-- A raw row with a missing calories value (dropped by `dropna`). -/
def rawBad2 : RawRow :=
  ⟨some "NoCal", none, some 18, some 9, some 700, some "brunch",
    some "w", some 1, some "m"⟩

/-- A raw row with an unrecognized `meal_slot` (mapped to `either`). -/
def rawOdd : RawRow :=
  ⟨some "Odd", some 300, some 10, some 5, some 100, some "brunch",
    some "w", some 2, some "m"⟩

/-- A raw table with all columns present. -/
def RTfull : RawTable :=
  ⟨true, true, true, true, true, true, true, true, true,
    [rawGood, rawBad1, rawBad2, rawOdd]⟩

/-- What `prepare_for_app` makes of `rawGood`. -/
def rowG : Row :=
  ⟨"Koshari", 450, 18, 9, 700, "iftar", "tasty", 12, "mains"⟩

/-- What `prepare_for_app` makes of `rawOdd`. -/
def rowO : Row :=
  ⟨"Odd", 300, 10, 5, 100, "either", "w", 2, "m"⟩

/-- The prepared form of `RTfull`. -/
def TP : Table := ⟨true, [rowG, rowO]⟩

/-- A raw table whose `protein` column is missing. -/
def RTmiss : RawTable :=
  ⟨true, true, false, true, true, false, false, false, false, []⟩

/-! ### Support lemmas -/

theorem slotNorm_mem (b : Bool) (s : Option String) :
    slotNorm b s = "suhoor" ∨ slotNorm b s = "iftar" ∨
      slotNorm b s = "either" := by
  simp only [slotNorm]
  split
  · split
    · rename_i hv
      rcases hv with h | h | h
      · exact Or.inl h
      · exact Or.inr (Or.inl h)
      · exact Or.inr (Or.inr h)
    · exact Or.inr (Or.inr rfl)
  · exact Or.inr (Or.inr rfl)

theorem recommend_eq (t : Table) (meal : String) (c p sm : ℚ) (n : Nat) :
    recommend t meal c p sm n =
      if (poolOf t meal c p sm).isEmpty then []
      else if t.hasKind then
        diversify n (sortByScore ((poolOf t meal c p sm).map (scoreRow c)))
      else (sortByScore ((poolOf t meal c p sm).map (scoreRow c))).take n :=
  rfl

theorem mem_sortByScore {s : Scored} {l : List Scored} :
    s ∈ sortByScore l ↔ s ∈ l :=
  (List.perm_insertionSort scoreGE l).mem_iff

theorem length_sortByScore (l : List Scored) :
    (sortByScore l).length = l.length :=
  (List.perm_insertionSort scoreGE l).length_eq

theorem mem_of_mem_diversify {n : Nat} {sorted : List Scored} {s : Scored}
    (h : s ∈ diversify n sorted) : s ∈ sorted := by
  simp only [diversify] at h
  have h1 := mem_sortByScore.1 (List.mem_of_mem_take h)
  rcases List.mem_flatten.1 h1 with ⟨gl, hgl, hs⟩
  rcases List.mem_map.1 hgl with ⟨k, _, rfl⟩
  exact (List.mem_filter.1 (List.mem_of_mem_take hs)).1

theorem mem_scored_of_mem_recommend {t : Table} {meal : String} {c p sm : ℚ}
    {n : Nat} {s : Scored} (h : s ∈ recommend t meal c p sm n) :
    s ∈ (poolOf t meal c p sm).map (scoreRow c) := by
  rw [recommend_eq] at h
  split at h
  · exact absurd h (List.not_mem_nil s)
  · split at h
    · exact mem_sortByScore.1 (mem_of_mem_diversify h)
    · exact mem_sortByScore.1 (List.mem_of_mem_take h)

theorem exists_row_of_mem_recommend {t : Table} {meal : String} {c p sm : ℚ}
    {n : Nat} {s : Scored} (h : s ∈ recommend t meal c p sm n) :
    ∃ r ∈ poolOf t meal c p sm, s = scoreRow c r := by
  rcases List.mem_map.1 (mem_scored_of_mem_recommend h) with ⟨r, hr, he⟩
  exact ⟨r, hr, he.symm⟩

theorem hardKeep_iff {c p sm : ℚ} {r : Row} :
    hardKeep c p sm r = true ↔
      r.calories ≤ c ∧ p ≤ r.protein ∧ r.sodium ≤ sm := by
  simp [hardKeep, and_assoc]

theorem mem_slotFilter_of_mem_pool {t : Table} {meal : String} {c p sm : ℚ}
    {r : Row} (h : r ∈ poolOf t meal c p sm) :
    r ∈ slotFilter (stripLower meal) t.rows :=
  (List.mem_filter.1 h).1

theorem length_diversify_le (n : Nat) (sorted : List Scored) :
    (diversify n sorted).length ≤
      min n ((kindsOf sorted).length * max 1 (n / 4)) := by
  simp only [diversify]
  rw [List.length_take, length_sortByScore]
  refine min_le_min le_rfl ?_
  rw [List.length_flatten]
  have hb : ∀ x ∈ ((kindsOf sorted).map
      fun k => (kindGroup sorted k).take (max 1 (n / 4))).map List.length,
      x ≤ max 1 (n / 4) := by
    intro x hx
    rcases List.mem_map.1 hx with ⟨gl, hgl, rfl⟩
    rcases List.mem_map.1 hgl with ⟨k, _, rfl⟩
    rw [List.length_take]
    exact min_le_left _ _
  calc (((kindsOf sorted).map
        fun k => (kindGroup sorted k).take (max 1 (n / 4))).map List.length).sum
      ≤ (((kindsOf sorted).map
          fun k => (kindGroup sorted k).take (max 1 (n / 4))).map
            List.length).length • (max 1 (n / 4)) :=
        List.sum_le_card_nsmul _ _ hb
    _ = (kindsOf sorted).length * max 1 (n / 4) := by
        rw [smul_eq_mul, List.length_map, List.length_map]

theorem kindsOf_sortByScore_map (pool : List Row) (c : ℚ) :
    (kindsOf (sortByScore (pool.map (scoreRow c)))).length =
      (pool.map (fun r => r.kind)).dedup.length := by
  have hp : List.Perm
      ((sortByScore (pool.map (scoreRow c))).map (fun s => s.row.kind))
      ((pool.map (scoreRow c)).map (fun s => s.row.kind)) :=
    (List.perm_insertionSort scoreGE _).map _
  have he : (pool.map (scoreRow c)).map (fun s => s.row.kind)
      = pool.map (fun r => r.kind) := by
    rw [List.map_map]
    rfl
  rw [kindsOf, (hp.dedup).length_eq, he]

theorem diversify_ne_nil {n : Nat} (hn : 1 ≤ n) {sorted : List Scored}
    (hs : sorted ≠ []) : diversify n sorted ≠ [] := by
  obtain ⟨e, he⟩ := List.exists_mem_of_ne_nil sorted hs
  have hk : e.row.kind ∈ kindsOf sorted :=
    List.mem_dedup.2 (List.mem_map_of_mem _ he)
  have heg : e ∈ kindGroup sorted e.row.kind :=
    List.mem_filter.2 ⟨he, by simp⟩
  have hgne : (kindGroup sorted e.row.kind).take (max 1 (n / 4)) ≠ [] := by
    intro hnil
    rcases List.take_eq_nil_iff.1 hnil with h | h
    · have h1 : (1 : Nat) ≤ max 1 (n / 4) := le_max_left _ _
      omega
    · rw [h] at heg
      exact List.not_mem_nil e heg
  obtain ⟨x, hx⟩ := List.exists_mem_of_ne_nil _ hgne
  have hxf : x ∈ ((kindsOf sorted).map
      fun k => (kindGroup sorted k).take (max 1 (n / 4))).flatten :=
    List.mem_flatten.2 ⟨_, List.mem_map_of_mem _ hk, hx⟩
  have hfne := List.ne_nil_of_mem hxf
  rw [← List.length_pos] at hfne ⊢
  simp only [diversify]
  rw [List.length_take, length_sortByScore]
  omega

/-! ### Claim theorems and witnesses -/

/-- C1: every row returned by `recommend` satisfies
`calories ≤ calories_max`, `protein ≥ protein_min` and
`sodium ≤ sodium_max`. -/
theorem recommend_respects_bounds (t : Table) (meal : String)
    (calories_max protein_min sodium_max : ℚ) (top_n : Nat) (s : Scored)
    (h : s ∈ recommend t meal calories_max protein_min sodium_max top_n) :
    s.row.calories ≤ calories_max ∧ protein_min ≤ s.row.protein ∧
      s.row.sodium ≤ sodium_max := by
  rcases exists_row_of_mem_recommend h with ⟨r, hr, rfl⟩
  exact hardKeep_iff.1 (List.mem_filter.1 hr).2

/-- C1 witness: the single surviving row of `T1` under the default
bounds satisfies all three constraints. -/
theorem recommend_respects_bounds_witness :
    (scoreRow 700 rowA).row.calories ≤ 700 ∧
      20 ≤ (scoreRow 700 rowA).row.protein ∧
      (scoreRow 700 rowA).row.sodium ≤ 1200 :=
  recommend_respects_bounds T1 "suhoor" 700 20 1200 5 (scoreRow 700 rowA)
    (by rw [show recommend T1 "suhoor" 700 20 1200 5 = [scoreRow 700 rowA]
              from rfl]
        exact List.mem_singleton_self _)

/-- C2: `recommend` returns at most `top_n` rows. -/
theorem recommend_at_most_top_n (t : Table) (meal : String)
    (calories_max protein_min sodium_max : ℚ) (top_n : Nat) :
    (recommend t meal calories_max protein_min sodium_max top_n).length ≤
      top_n := by
  rw [recommend_eq]
  split
  · simp
  · split
    · simp only [diversify]
      rw [List.length_take]
      exact min_le_left _ _
    · rw [List.length_take]
      exact min_le_left _ _

/-- C3: in the diversification branch each kind group is capped at
`per_kind_cap = max(1, top_n // 4)` before the final re-sort and
truncation, so the result has at most
`(number of distinct kinds) * per_kind_cap` rows (and at most `top_n`);
with two kinds and `top_n = 4` this gives at most 2 rows. -/
theorem recommend_kind_cap (t : Table) (meal : String)
    (calories_max protein_min sodium_max : ℚ) (top_n : Nat)
    (hK : t.hasKind = true) :
    (recommend t meal calories_max protein_min sodium_max top_n).length ≤
      min top_n
        (((poolOf t meal calories_max protein_min sodium_max).map
            (fun r => r.kind)).dedup.length * max 1 (top_n / 4)) := by
  rw [recommend_eq]
  by_cases he : (poolOf t meal calories_max protein_min sodium_max).isEmpty
  · rw [if_pos he]
    simp
  · rw [if_neg he, if_pos hK]
    have h := length_diversify_le top_n
      (sortByScore ((poolOf t meal calories_max protein_min sodium_max).map
        (scoreRow calories_max)))
    rwa [kindsOf_sortByScore_map] at h

/-- C3 witness: `T16` has two kinds with eight qualifying rows each;
with `top_n = 4` the cap is 1 per kind, so at most 2 rows come back. -/
theorem recommend_kind_cap_witness :
    (recommend T16 "either" 2000 0 6000 4).length ≤ 2 := by
  have h := recommend_kind_cap T16 "either" 2000 0 6000 4 rfl
  have hd : ((poolOf T16 "either" 2000 0 6000).map
      (fun r => r.kind)).dedup.length = 2 := by decide
  rw [hd] at h
  exact le_trans h (by norm_num)

/-- C4: the sequence returned by `recommend` is ordered by
non-increasing `score`, and every returned row's `score` equals its
`final_score` plus `0.6` times its `calorie_fit`. -/
theorem recommend_sorted_by_score (t : Table) (meal : String)
    (calories_max protein_min sodium_max : ℚ) (top_n : Nat) :
    (recommend t meal calories_max protein_min sodium_max
        top_n).Pairwise (fun a b => b.score ≤ a.score) ∧
      ∀ s ∈ recommend t meal calories_max protein_min sodium_max top_n,
        s.score = s.row.final_score + s.calorie_fit * (6 / 10) := by
  constructor
  · rw [recommend_eq]
    split
    · exact List.Pairwise.nil
    · split
      · simp only [diversify]
        exact List.Pairwise.sublist (List.take_sublist _ _)
          (List.sorted_insertionSort scoreGE _)
      · exact List.Pairwise.sublist (List.take_sublist _ _)
          (List.sorted_insertionSort scoreGE _)
  · intro s hs
    rcases exists_row_of_mem_recommend hs with ⟨r, _, rfl⟩
    rfl

/-- C4 witness: the sorted-order property at `T1`, and the score
equation at its single returned row. -/
theorem recommend_sorted_by_score_witness :
    (recommend T1 "suhoor" 700 20 1200
        5).Pairwise (fun a b => b.score ≤ a.score) ∧
      (scoreRow 700 rowA).score =
        (scoreRow 700 rowA).row.final_score +
          (scoreRow 700 rowA).calorie_fit * (6 / 10) :=
  ⟨(recommend_sorted_by_score T1 "suhoor" 700 20 1200 5).1,
   (recommend_sorted_by_score T1 "suhoor" 700 20 1200 5).2 _
     (by rw [show recommend T1 "suhoor" 700 20 1200 5 = [scoreRow 700 rowA]
               from rfl]
         exact List.mem_singleton_self _)⟩

/-- C5: every surviving row's `calorie_fit` is
`clamp(1 - |calories - calories_max| / max(calories_max, 1), 0, 1)`;
it equals 1 when `calories = calories_max`, equals 0 for
`calories = 0` with `calories_max = 700`, and the computation is total
at `calories_max = 0` (the divisor is `max 0 1 = 1`). -/
theorem recommend_calorie_fit (t : Table) (meal : String)
    (calories_max protein_min sodium_max : ℚ) (top_n : Nat) :
    (∀ s ∈ recommend t meal calories_max protein_min sodium_max top_n,
        s.calorie_fit =
          min (max (1 - |s.row.calories - calories_max| /
            max calories_max 1) 0) 1) ∧
      (∀ x : ℚ, calorieFit x x = 1) ∧ calorieFit 700 0 = 0 ∧
      (∀ cal : ℚ, calorieFit 0 cal = min (max (1 - |cal|) 0) 1) := by
  refine ⟨?_, ?_, ?_, ?_⟩
  · intro s hs
    rcases exists_row_of_mem_recommend hs with ⟨r, _, rfl⟩
    rfl
  · intro x
    simp [calorieFit, calorieFitRaw, clip01, sub_self]
  · have habs : |(0 : ℚ) - 700| = 700 := by
      rw [zero_sub, abs_neg]
      exact abs_of_nonneg (by norm_num)
    rw [calorieFit, calorieFitRaw, habs, clip01]
    norm_num
  · intro cal
    rw [calorieFit, calorieFitRaw, clip01, sub_zero,
      max_eq_right (zero_le_one), div_one]

/-- C5 witness: the formula at the returned row of `T1`, and the three
concrete evaluations. -/
theorem recommend_calorie_fit_witness :
    (scoreRow 700 rowA).calorie_fit =
        min (max (1 - |(scoreRow 700 rowA).row.calories - 700| /
          max (700 : ℚ) 1) 0) 1 ∧
      calorieFit 700 700 = 1 ∧ calorieFit 700 0 = 0 ∧
      calorieFit 0 5 = min (max (1 - |(5 : ℚ)|) 0) 1 :=
  ⟨(recommend_calorie_fit T1 "suhoor" 700 20 1200 5).1 _
     (by rw [show recommend T1 "suhoor" 700 20 1200 5 = [scoreRow 700 rowA]
               from rfl]
         exact List.mem_singleton_self _),
   (recommend_calorie_fit T1 "suhoor" 700 20 1200 5).2.1 700,
   (recommend_calorie_fit T1 "suhoor" 700 20 1200 5).2.2.1,
   (recommend_calorie_fit T1 "suhoor" 700 20 1200 5).2.2.2 5⟩

/-- C6: with normalized meal `"suhoor"` no returned row has
`meal_slot = "iftar"`, with `"iftar"` none has `meal_slot = "suhoor"`,
and with any other normalized meal the slot filter is the identity. -/
theorem recommend_slot_filter (t : Table) (meal : String)
    (calories_max protein_min sodium_max : ℚ) (top_n : Nat) :
    (stripLower meal = "suhoor" →
      ∀ s ∈ recommend t meal calories_max protein_min sodium_max top_n,
        s.row.meal_slot ≠ "iftar") ∧
    (stripLower meal = "iftar" →
      ∀ s ∈ recommend t meal calories_max protein_min sodium_max top_n,
        s.row.meal_slot ≠ "suhoor") ∧
    (stripLower meal ≠ "suhoor" → stripLower meal ≠ "iftar" →
      slotFilter (stripLower meal) t.rows = t.rows) := by
  refine ⟨?_, ?_, ?_⟩
  · intro hm s hs
    rcases exists_row_of_mem_recommend hs with ⟨r, hr, rfl⟩
    have h1 := mem_slotFilter_of_mem_pool hr
    rw [hm, slotFilter, if_pos (Or.inl rfl)] at h1
    have h2 := (List.mem_filter.1 h1).2
    rw [slotKeep, Bool.or_eq_true, beq_iff_eq, beq_iff_eq] at h2
    show r.meal_slot ≠ "iftar"
    rcases h2 with h2 | h2 <;> rw [h2] <;> decide
  · intro hm s hs
    rcases exists_row_of_mem_recommend hs with ⟨r, hr, rfl⟩
    have h1 := mem_slotFilter_of_mem_pool hr
    rw [hm, slotFilter, if_pos (Or.inr rfl)] at h1
    have h2 := (List.mem_filter.1 h1).2
    rw [slotKeep, Bool.or_eq_true, beq_iff_eq, beq_iff_eq] at h2
    show r.meal_slot ≠ "suhoor"
    rcases h2 with h2 | h2 <;> rw [h2] <;> decide
  · intro h1 h2
    rw [slotFilter, if_neg]
    rintro (h | h) <;> contradiction

/-- C6 witness: with meal `"suhoor"` the returned row of `T1` is not
an iftar row. -/
theorem recommend_slot_filter_witness :
    (scoreRow 700 rowA).row.meal_slot ≠ "iftar" :=
  (recommend_slot_filter T1 "suhoor" 700 20 1200 5).1 (by decide) _
    (by rw [show recommend T1 "suhoor" 700 20 1200 5 = [scoreRow 700 rowA]
              from rfl]
        exact List.mem_singleton_self _)

/-- C7: when no row survives the slot and hard-constraint filters,
`recommend` returns the empty sequence (and, being total, raises
nothing). -/
theorem recommend_empty_pool (t : Table) (meal : String)
    (calories_max protein_min sodium_max : ℚ) (top_n : Nat)
    (h : poolOf t meal calories_max protein_min sodium_max = []) :
    recommend t meal calories_max protein_min sodium_max top_n = [] := by
  rw [recommend_eq, h]
  simp

/-- C7 witness: with `protein_min = 1000` no row of `T1` survives and
the result is empty. -/
theorem recommend_empty_pool_witness :
    recommend T1 "suhoor" 700 1000 1200 5 = [] :=
  recommend_empty_pool T1 "suhoor" 700 1000 1200 5 (by decide)

/-- C10: with `top_n ≥ 1`, whenever at least one row survives the
filters, `recommend` returns at least one row — in both the
diversification branch (where `per_kind_cap ≥ 1`) and the plain
branch. -/
theorem recommend_nonempty (t : Table) (meal : String)
    (calories_max protein_min sodium_max : ℚ) (top_n : Nat)
    (hn : 1 ≤ top_n)
    (hp : poolOf t meal calories_max protein_min sodium_max ≠ []) :
    recommend t meal calories_max protein_min sodium_max top_n ≠ [] := by
  rw [recommend_eq, if_neg (fun hie => hp (List.isEmpty_iff.1 hie))]
  have hlen : 0 < ((poolOf t meal calories_max protein_min sodium_max).map
      (scoreRow calories_max)).length := by
    rw [List.length_map, List.length_pos]
    exact hp
  split
  · refine diversify_ne_nil hn ?_
    rw [← List.length_pos, length_sortByScore]
    exact hlen
  · rw [← List.length_pos, List.length_take, length_sortByScore]
    omega

/-- C8: every row of the prepared table is within the sanity ranges
and carries a `meal_slot` in `{suhoor, iftar, either}`; an absent
`meal_slot` column means `either` everywhere, and an unrecognized
value (after strip/lowercase) becomes `either`. -/
theorem prepare_invariants (raw : RawTable) (t : Table)
    (h : prepare_for_app raw = Except.ok t) :
    (∀ r ∈ t.rows,
        (1 ≤ r.calories ∧ r.calories ≤ 1993) ∧
        (0 ≤ r.protein ∧ r.protein ≤ 200) ∧
        (0 ≤ r.fat ∧ r.fat ≤ 194) ∧
        (0 ≤ r.sodium ∧ r.sodium ≤ 5980) ∧
        (r.meal_slot = "suhoor" ∨ r.meal_slot = "iftar" ∨
          r.meal_slot = "either")) ∧
      (∀ s, slotNorm false s = "either") ∧
      (∀ s : Option String,
        ¬(stripLower (s.getD "nan") = "suhoor" ∨
          stripLower (s.getD "nan") = "iftar" ∨
          stripLower (s.getD "nan") = "either") →
        slotNorm true s = "either") := by
  refine ⟨?_, fun _ => rfl, ?_⟩
  · intro r hr
    have ht : t.rows = raw.rows.filterMap (prepRow raw) := by
      rcases hm : missingRequired raw with _ | c
      · rw [prepare_for_app, hm] at h
        cases h
        rfl
      · rw [prepare_for_app, hm] at h
        cases h
    rw [ht] at hr
    rcases List.mem_filterMap.1 hr with ⟨rr, _, hpr⟩
    rcases h1 : rr.title with _ | ti <;>
      rcases h2 : rr.calories with _ | cal <;>
      rcases h3 : rr.protein with _ | prot <;>
      rcases h4 : rr.fat with _ | fa <;>
      rcases h5 : rr.sodium with _ | sod <;>
      simp only [prepRow, h1, h2, h3, h4, h5] at hpr <;>
      try exact Option.noConfusion hpr
    split at hpr
    · rename_i hir
      cases hpr
      simp only [inRanges, Bool.and_eq_true, decide_eq_true_eq] at hir
      exact ⟨hir.1.1.1, hir.1.1.2, hir.1.2, hir.2, slotNorm_mem _ _⟩
    · cases hpr
  · intro s hns
    simp only [slotNorm, if_pos]
    exact if_neg hns

/-- C8 witness: the prepared form of `RTfull` keeps exactly the two
in-range rows, and its first row satisfies all five invariants. -/
theorem prepare_invariants_witness :
    (1 ≤ rowG.calories ∧ rowG.calories ≤ 1993) ∧
      (0 ≤ rowG.protein ∧ rowG.protein ≤ 200) ∧
      (0 ≤ rowG.fat ∧ rowG.fat ≤ 194) ∧
      (0 ≤ rowG.sodium ∧ rowG.sodium ≤ 5980) ∧
      (rowG.meal_slot = "suhoor" ∨ rowG.meal_slot = "iftar" ∨
        rowG.meal_slot = "either") :=
  (prepare_invariants RTfull TP rfl).1 rowG (by decide)

/-- C9: `prepare_for_app` raises an error iff one of the five required
columns is missing, the error names a missing column, and with all
five present it returns a prepared table. -/
theorem prepare_missing_column (raw : RawTable) :
    ((∃ c, prepare_for_app raw = Except.error c) ↔
      (raw.hasTitle = false ∨ raw.hasCalories = false ∨
        raw.hasProtein = false ∨ raw.hasFat = false ∨
        raw.hasSodium = false)) ∧
      (∀ c, prepare_for_app raw = Except.error c →
        (c = "title" ∧ raw.hasTitle = false) ∨
        (c = "calories" ∧ raw.hasCalories = false) ∨
        (c = "protein" ∧ raw.hasProtein = false) ∨
        (c = "fat" ∧ raw.hasFat = false) ∨
        (c = "sodium" ∧ raw.hasSodium = false)) ∧
      (raw.hasTitle = true → raw.hasCalories = true →
        raw.hasProtein = true → raw.hasFat = true →
        raw.hasSodium = true →
        ∃ tb, prepare_for_app raw = Except.ok tb) := by
  obtain ⟨ht, hc, hp, hf, hs, hms, hw, hfs, hk, rows⟩ := raw
  cases ht <;> cases hc <;> cases hp <;> cases hf <;> cases hs <;>
    simp [prepare_for_app, missingRequired]

/-- C9 witness: with `protein` missing the preparation fails and the
error names `protein`; with all columns present it succeeds. -/
theorem prepare_missing_column_witness :
    (∃ c, prepare_for_app RTmiss = Except.error c) ∧
      (("protein" = "title" ∧ RTmiss.hasTitle = false) ∨
        ("protein" = "calories" ∧ RTmiss.hasCalories = false) ∨
        ("protein" = "protein" ∧ RTmiss.hasProtein = false) ∨
        ("protein" = "fat" ∧ RTmiss.hasFat = false) ∨
        ("protein" = "sodium" ∧ RTmiss.hasSodium = false)) ∧
      (∃ tb, prepare_for_app RTfull = Except.ok tb) :=
  ⟨(prepare_missing_column RTmiss).1.mpr (Or.inr (Or.inr (Or.inl rfl))),
   (prepare_missing_column RTmiss).2.1 "protein" rfl,
   (prepare_missing_column RTfull).2.2 rfl rfl rfl rfl rfl⟩

/-- C10 witness: `T1` under the default bounds has a surviving row, and
`recommend` with `top_n = 5` indeed returns a nonempty result. -/
theorem recommend_nonempty_witness :
    recommend T1 "suhoor" 700 20 1200 5 ≠ [] :=
  recommend_nonempty T1 "suhoor" 700 20 1200 5 (by decide) (by decide)

end RamadanApp
